import Mathlib

/-!
Verification of the watermark placement/tiling engine of the `watermark`
repository (React + canvas + pdf-lib application).

The relevant program text lives in
`src/components/SettingsPanel.tsx`, `src/components/PreviewWindow.tsx`,
`src/components/Thumbnail.tsx` and the shared types of `src/App.tsx`.
The pure geometry (anchor tables, stride formulas, tiling loops, preset
store updates, hex-colour parsing) is embedded below.  Exact rational
arithmetic (`ℚ`) stands in for JavaScript numbers in all loop/table code;
the trigonometric stride formulas are embedded over `ℝ`.
-/

namespace Watermark

/-- The 9-valued `WatermarkPosition` union type of `src/App.tsx`. -/
inductive WatermarkPosition where
  | topLeft
  | topCenter
  | topRight
  | middleLeft
  | middleCenter
  | middleRight
  | bottomLeft
  | bottomCenter
  | bottomRight
deriving DecidableEq

/-- Canvas `textAlign` values used by the position tables. -/
inductive TextAlign where
  | left
  | center
  | right
deriving DecidableEq

/-- Canvas `textBaseline` values used by the position tables. -/
inductive TextBaseline where
  | top
  | middle
  | bottom
deriving DecidableEq

/-- Result record of the raster `getWatermarkPosition` helpers. -/
structure CanvasPos where
  x : ℚ
  y : ℚ
  textAlign : TextAlign
  textBaseline : TextBaseline
deriving DecidableEq

/-- `getWatermarkPosition` as defined identically in `SettingsPanel.tsx`
(lines 16–34), `PreviewWindow.tsx` (lines 26–44) and `Thumbnail.tsx`
(lines 20–38): a 9-entry table over the anchor enum.  The JavaScript
`positions[position] || positions[..]` fallback is unreachable for the
closed enum and therefore does not appear. -/
def getWatermarkPosition (position : WatermarkPosition)
    (canvasWidth canvasHeight margin : ℚ) : CanvasPos :=
  match position with
  | .topLeft => ⟨margin, margin, .left, .top⟩
  | .topCenter => ⟨canvasWidth / 2, margin, .center, .top⟩
  | .topRight => ⟨canvasWidth - margin, margin, .right, .top⟩
  | .middleLeft => ⟨margin, canvasHeight / 2, .left, .middle⟩
  | .middleCenter => ⟨canvasWidth / 2, canvasHeight / 2, .center, .middle⟩
  | .middleRight => ⟨canvasWidth - margin, canvasHeight / 2, .right, .middle⟩
  | .bottomLeft => ⟨margin, canvasHeight - margin, .left, .bottom⟩
  | .bottomCenter => ⟨canvasWidth / 2, canvasHeight - margin, .center, .bottom⟩
  | .bottomRight => ⟨canvasWidth - margin, canvasHeight - margin, .right, .bottom⟩

/-- Result record of `getWatermarkPositionPdf`. -/
structure PdfPos where
  x : ℚ
  y : ℚ
deriving DecidableEq

/-- `getWatermarkPositionPdf` from `SettingsPanel.tsx` (lines 36–54):
the page-surface anchor table in the PDF bottom-left-up convention. -/
def getWatermarkPositionPdf (position : WatermarkPosition)
    (pageWidth pageHeight margin : ℚ) : PdfPos :=
  match position with
  | .topLeft => ⟨margin, pageHeight - margin⟩
  | .topCenter => ⟨pageWidth / 2, pageHeight - margin⟩
  | .topRight => ⟨pageWidth - margin, pageHeight - margin⟩
  | .middleLeft => ⟨margin, pageHeight / 2⟩
  | .middleCenter => ⟨pageWidth / 2, pageHeight / 2⟩
  | .middleRight => ⟨pageWidth - margin, pageHeight / 2⟩
  | .bottomLeft => ⟨margin, margin⟩
  | .bottomCenter => ⟨pageWidth / 2, margin⟩
  | .bottomRight => ⟨pageWidth - margin, margin⟩

/-- The vertical band (row) of an anchor value, read off its name. -/
def anchorRow : WatermarkPosition → TextBaseline
  | .topLeft | .topCenter | .topRight => .top
  | .middleLeft | .middleCenter | .middleRight => .middle
  | .bottomLeft | .bottomCenter | .bottomRight => .bottom

/-- The horizontal band (column) of an anchor value, read off its name. -/
def anchorCol : WatermarkPosition → TextAlign
  | .topLeft | .middleLeft | .bottomLeft => .left
  | .topCenter | .middleCenter | .bottomCenter => .center
  | .topRight | .middleRight | .bottomRight => .right

/-- The vertical coordinate the claim attributes to each anchor row on a
bottom-left-up page surface: top rows at `pageHeight − margin`, middle rows
at `pageHeight / 2`, bottom rows at `margin`. -/
def claimPdfY (position : WatermarkPosition) (pageHeight margin : ℚ) : ℚ :=
  match anchorRow position with
  | .top => pageHeight - margin
  | .middle => pageHeight / 2
  | .bottom => margin

/-- `position.includes('right')` on the nine literal anchor names. -/
def includesRight : WatermarkPosition → Bool
  | .topRight | .middleRight | .bottomRight => true
  | _ => false

/-- `position.includes('center')` on the nine literal anchor names. -/
def includesCenter : WatermarkPosition → Bool
  | .topCenter | .middleCenter | .bottomCenter => true
  | _ => false

/-- The single-mode x coordinate emitted to `page.drawText` by
`applyWatermarkToPdf` in `SettingsPanel.tsx` (lines 230–247):
start from `getWatermarkPositionPdf(..).x`, subtract half the measured
text width for right- and center-column anchors, add half for the rest. -/
def pdfSingleDrawX (position : WatermarkPosition)
    (pageWidth pageHeight margin textWidth : ℚ) : ℚ :=
  let pos := getWatermarkPositionPdf position pageWidth pageHeight margin
  if includesRight position then pos.x - textWidth / 2
  else if includesCenter position then pos.x - textWidth / 2
  else pos.x + textWidth / 2

/-- The half-width shift that the code applies, expressed per column. -/
def codeShiftPdf : TextAlign → ℚ → ℚ
  | .left, textWidth => textWidth / 2
  | .center, textWidth => -(textWidth / 2)
  | .right, textWidth => -(textWidth / 2)

/-- Modelled from the claim's words: the draw x that would place the text
as the resolved alignment specifies, given that the page primitive anchors
text at its baseline start (so the text occupies `[x, x + textWidth]`):
left alignment puts the anchor at the left edge, center at the middle,
right at the right edge. -/
def specAlignedDrawX (position : WatermarkPosition)
    (pageWidth pageHeight margin textWidth : ℚ) : ℚ :=
  let pos := getWatermarkPositionPdf position pageWidth pageHeight margin
  match anchorCol position with
  | .left => pos.x
  | .center => pos.x - textWidth / 2
  | .right => pos.x - textWidth

/-- Per-column difference between the emitted draw x and the
alignment-correct draw x. -/
def alignErrPdf : TextAlign → ℚ → ℚ
  | .left, textWidth => textWidth / 2
  | .center, _ => 0
  | .right, textWidth => textWidth / 2

/-- One JavaScript counting loop `for (let i = start; i < limit; i += step)`,
returning the sequence of loop-variable values.  The loops in the three
repeating-mode renderers all have this shape.  `fuel` bounds the number of
iterations so the definition is total even for the zero/negative strides
the source does not guard against; a run that exhausts its fuel while the
guard still holds models a loop that has not terminated. -/
def tileLoop : Nat → ℚ → ℚ → ℚ → List ℚ
  | 0, _, _, _ => []
  | fuel + 1, i, limit, step =>
      if i < limit then i :: tileLoop fuel (i + step) limit step else []

/-- Number of iterations of `for (let i = 0; i < limit; i += step)` for a
positive `step`: the count of naturals `j` with `j · step < limit`. -/
def stepCount (limit step : ℚ) : Nat := (Int.ceil (limit / step)).toNat

/-- A 2D affine canvas transform `(x, y) ↦ (a x + b y + e, c x + d y + f)`,
the current-transform matrix of a canvas 2D context. -/
structure CanvasMatrix where
  a : ℚ
  b : ℚ
  c : ℚ
  d : ℚ
  e : ℚ
  f : ℚ
deriving DecidableEq

/-- Apply a canvas transform to a point. -/
def CanvasMatrix.apply (M : CanvasMatrix) (p : ℚ × ℚ) : ℚ × ℚ :=
  (M.a * p.1 + M.b * p.2 + M.e, M.c * p.1 + M.d * p.2 + M.f)

/-- Composition `M ∘ N` (first apply `N`, then `M`), how a canvas context
accumulates `translate`/`rotate` calls onto its current matrix. -/
def CanvasMatrix.comp (M N : CanvasMatrix) : CanvasMatrix :=
  ⟨M.a * N.a + M.b * N.c, M.a * N.b + M.b * N.d,
   M.c * N.a + M.d * N.c, M.c * N.b + M.d * N.d,
   M.a * N.e + M.b * N.f + M.e, M.c * N.e + M.d * N.f + M.f⟩

/-- The identity transform of a freshly saved canvas context. -/
def CanvasMatrix.idm : CanvasMatrix := ⟨1, 0, 0, 1, 0, 0⟩

/-- `ctx.translate(tx, ty)`. -/
def CanvasMatrix.translate (M : CanvasMatrix) (tx ty : ℚ) : CanvasMatrix :=
  M.comp ⟨1, 0, 0, 1, tx, ty⟩

/-- `ctx.rotate(rad)`, parameterised by `co = cos rad` and `si = sin rad`
so that the geometry stays in exact arithmetic. -/
def CanvasMatrix.rotateCS (M : CanvasMatrix) (co si : ℚ) : CanvasMatrix :=
  M.comp ⟨co, -si, si, co, 0, 0⟩

/-- The transform set up by the repeating branch of `drawWatermarkOnCanvas`
(`SettingsPanel.tsx` lines 169–171) and `drawWatermarkToCanvas`
(`Thumbnail.tsx` lines 81–83):
`translate(w/2, h/2); rotate(rad); translate(−w/2, −h/2)`. -/
def canvasFrameTransform (w h co si : ℚ) : CanvasMatrix :=
  ((CanvasMatrix.idm.translate (w / 2) (h / 2)).rotateCS co si).translate
    (-(w / 2)) (-(h / 2))

/-- Rotation of the plane about the point `ctr`, with `co = cos rad` and
`si = sin rad` — the single whole-frame rotation the spec mandates. -/
def rotAboutPoint (co si : ℚ) (ctr p : ℚ × ℚ) : ℚ × ℚ :=
  (ctr.1 + co * (p.1 - ctr.1) - si * (p.2 - ctr.2),
   ctr.2 + si * (p.1 - ctr.1) + co * (p.2 - ctr.2))

/-- Effective draw positions of the repeating branch of
`drawWatermarkOnCanvas` (`SettingsPanel.tsx` lines 169–177) and of
`drawWatermarkToCanvas` (`Thumbnail.tsx` lines 81–89), which are
line-for-line identical: under the frame transform, the nested loops
`for (y = 0; y < h*2; y += vStride) for (x = 0; x < w*2; x += hStride)`
emit `fillText` at `(x − w, y − h)`.  Strides and the cosine/sine of the
rotation angle enter as parameters. -/
def canvasRepeatPositions (w h hStride vStride co si : ℚ)
    (fuelY fuelX : Nat) : List (ℚ × ℚ) :=
  (tileLoop fuelY 0 (h * 2) vStride).flatMap (fun y =>
    (tileLoop fuelX 0 (w * 2) hStride).map (fun x =>
      (canvasFrameTransform w h co si).apply (x - w, y - h)))

/-- Effective draw positions of the repeating branch of `drawWatermark`
(`PreviewWindow.tsx` lines 75–85): the loops run while `y < h + vStride`
and `x < w + hStride`, and each instance is drawn at `(x, y)` after a
purely local `translate(x, y); rotate(rad)` — the per-instance rotation
leaves the instance position unchanged. -/
def previewRepeatPositions (w h hStride vStride : ℚ)
    (fuelY fuelX : Nat) : List (ℚ × ℚ) :=
  (tileLoop fuelY 0 (h + vStride) vStride).flatMap (fun y =>
    (tileLoop fuelX 0 (w + hStride) hStride).map (fun x => (x, y)))

/-- Modelled from the spec's words (§4.2 step 4): origins for `y` from 0
to `2·surfaceHeight` step `vStride` and `x` from 0 to `2·surfaceWidth`
step `hStride`, each offset by `(−surfaceWidth, −surfaceHeight)`, in
closed form. -/
def specCanonicalOrigins (surfaceWidth surfaceHeight hStride vStride : ℚ) :
    List (ℚ × ℚ) :=
  (List.range (stepCount (surfaceHeight * 2) vStride)).flatMap (fun (j : Nat) =>
    (List.range (stepCount (surfaceWidth * 2) hStride)).map (fun (k : Nat) =>
      ((k : ℚ) * hStride - surfaceWidth, (j : ℚ) * vStride - surfaceHeight)))

/-- `rad = -angle * Math.PI / 180` as computed by all three raster
renderers (the canvas rotation is negated for counter-clockwise display). -/
noncomputable def rasterRad (angle : ℝ) : ℝ := -angle * Real.pi / 180

/-- `boxWidth = textWidth * absCos + textHeight * absSin` from the
repeating branches of `drawWatermarkOnCanvas` (`SettingsPanel.tsx`
lines 160–163) and `drawWatermarkToCanvas` (`Thumbnail.tsx` lines 72–75). -/
noncomputable def boxWidthR (textWidth textHeight angle : ℝ) : ℝ :=
  textWidth * |Real.cos (rasterRad angle)| +
    textHeight * |Real.sin (rasterRad angle)|

/-- `boxHeight = textWidth * absSin + textHeight * absCos` from the same
repeating branches. -/
noncomputable def boxHeightR (textWidth textHeight angle : ℝ) : ℝ :=
  textWidth * |Real.sin (rasterRad angle)| +
    textHeight * |Real.cos (rasterRad angle)|

/-- `hSpacing = boxWidth + colSpacing`, the horizontal stride. -/
noncomputable def hStrideR (textWidth textHeight angle colSpacing : ℝ) : ℝ :=
  boxWidthR textWidth textHeight angle + colSpacing

/-- `vSpacing = boxHeight + rowSpacing`, the vertical stride. -/
noncomputable def vStrideR (textWidth textHeight angle rowSpacing : ℝ) : ℝ :=
  boxHeightR textWidth textHeight angle + rowSpacing

/-- `hSpacing = textWidth + colSpacing` from the repeating branch of
`drawWatermark` (`PreviewWindow.tsx` line 72), which uses the unrotated
text width instead of the rotated bounding box. -/
def previewHStrideR (textWidth colSpacing : ℝ) : ℝ := textWidth + colSpacing

/-- `mode` union type of `src/App.tsx`. -/
inductive WatermarkMode where
  | single
  | repeating
deriving DecidableEq

/-- `WatermarkOptions` of `src/App.tsx` (colour kept as its raw string). -/
structure WatermarkOptions where
  text : String
  fontSize : ℚ
  color : String
  opacity : ℚ
  angle : ℚ
  mode : WatermarkMode
  position : WatermarkPosition
  rowSpacing : ℚ
  colSpacing : ℚ
deriving DecidableEq

/-- `SavedStyle` of `SettingsPanel.tsx` (lines 56–59). -/
structure SavedStyle where
  name : String
  options : WatermarkOptions
deriving DecidableEq

/-- The preset store visible to `handleSaveStyle`: the `savedStyles` React
state and the list persisted under the `watermarkStyles` localStorage key
(stored as JSON; modelled structurally). -/
structure StyleStore where
  styles : List SavedStyle
  storage : List SavedStyle
deriving DecidableEq

/-- JavaScript `String.prototype.trim`: drop whitespace from both ends,
modelled on the character list of the string. -/
def jsTrim (s : String) : String :=
  ⟨((s.data.dropWhile Char.isWhitespace).reverse.dropWhile
      Char.isWhitespace).reverse⟩

/-- `handleSaveStyle` from `SettingsPanel.tsx` (lines 105–119): trim the
entered name; an empty or duplicate name aborts before any state or
storage write; otherwise the single new entry is appended to the state
list and the appended list is persisted. -/
def handleSaveStyle (styleName : String) (st : StyleStore)
    (localOptions : WatermarkOptions) : StyleStore :=
  let t := jsTrim styleName
  if t = "" then st
  else if st.styles.any (fun s => s.name == t) then st
  else
    let updated := st.styles ++ [⟨t, localOptions⟩]
    ⟨updated, updated⟩

/-- A sample options value (the `App.tsx` initial state, opacity 1/2). -/
def sampleOptions : WatermarkOptions :=
  ⟨"Your Watermark", 48, "#ffffff", 1 / 2, 0, .single, .middleCenter, 50, 50⟩

/-- A sample store holding one saved style named `logo`. -/
def sampleStore : StyleStore :=
  ⟨[⟨"logo", sampleOptions⟩], [⟨"logo", sampleOptions⟩]⟩

/-- Whether a character is matched by the regex class `[a-f\d]` under the
`i` flag: a decimal digit or a hex letter of either case. -/
def isHexDigitB (c : Char) : Bool :=
  (decide ('0' ≤ c) && decide (c ≤ '9')) ||
    (decide ('a' ≤ c) && decide (c ≤ 'f')) ||
    (decide ('A' ≤ c) && decide (c ≤ 'F'))

/-- `parseInt(d, 16)` on one character of the class `[a-f\d]` (either
case), `none` outside the class. -/
def hexDigitVal? (c : Char) : Option Nat :=
  if '0' ≤ c ∧ c ≤ '9' then some (c.toNat - Char.toNat '0')
  else if 'a' ≤ c ∧ c ≤ 'f' then some (c.toNat - Char.toNat 'a' + 10)
  else if 'A' ≤ c ∧ c ≤ 'F' then some (c.toNat - Char.toNat 'A' + 10)
  else none

/-- The capture step of `/^([a-f\d]{2})([a-f\d]{2})([a-f\d]{2})$/i` plus
`parseInt(group, 16)`: exactly six class characters yield the three
channel values, anything else fails. -/
def parse6 : List Char → Option (Nat × Nat × Nat)
  | [c1, c2, c3, c4, c5, c6] =>
      match hexDigitVal? c1, hexDigitVal? c2, hexDigitVal? c3,
          hexDigitVal? c4, hexDigitVal? c5, hexDigitVal? c6 with
      | some d1, some d2, some d3, some d4, some d5, some d6 =>
          some (16 * d1 + d2, 16 * d3 + d4, 16 * d5 + d6)
      | _, _, _, _, _, _ => none
  | _ => none

/-- `/^#?([a-f\d]{2})([a-f\d]{2})([a-f\d]{2})$/i.exec(hex)` with the three
groups already parsed: an optional leading `#` is skipped (a `#` is not a
class character, so backtracking over the optional `#` never succeeds). -/
def hexExecL (l : List Char) : Option (Nat × Nat × Nat) :=
  match l with
  | c :: rest => if c = '#' then parse6 rest else parse6 (c :: rest)
  | [] => parse6 []

/-- Structured form of the `rgba(r, g, b, opacity)` string built by
`hexToRgba`. -/
structure Rgba where
  r : Nat
  g : Nat
  b : Nat
  a : ℚ
deriving DecidableEq

/-- `hexToRgba` as defined identically in `SettingsPanel.tsx` (lines
9–14), `PreviewWindow.tsx` (lines 19–24) and `Thumbnail.tsx` (lines
15–18): parse the colour with the hex regex; on success build
`rgba(r, g, b, opacity)` from the parsed channels, otherwise fall back to
`rgba(0, 0, 0, opacity)`. -/
def hexToRgba (hex : String) (opacity : ℚ) : Rgba :=
  match hexExecL hex.data with
  | some (r, g, b) => ⟨r, g, b, opacity⟩
  | none => ⟨0, 0, 0, opacity⟩

/-- Modelled from the claim's words: a colour string of the 6-hex-digit
form, with an optional leading `#`. -/
def specSixHexFormL (l : List Char) : Bool :=
  let body := match l with
    | c :: rest => if c = '#' then rest else c :: rest
    | [] => []
  body.length == 6 && body.all isHexDigitB

end Watermark

namespace Watermark

/-- The `translate(w/2, h/2); rotate(rad); translate(−w/2, −h/2)` prologue
of the canvas repeating branches is exactly a rotation of the plane about
the surface center. -/
theorem canvasFrameTransform_apply (w h co si : ℚ) (p : ℚ × ℚ) :
    (canvasFrameTransform w h co si).apply p =
      rotAboutPoint co si (w / 2, h / 2) p := by
  obtain ⟨px, py⟩ := p
  simp only [canvasFrameTransform, CanvasMatrix.apply, CanvasMatrix.comp,
    CanvasMatrix.translate, CanvasMatrix.rotateCS, CanvasMatrix.idm,
    rotAboutPoint, Prod.mk.injEq]
  constructor <;> ring

/-- Closed form of the counting loop for a positive step: starting at the
`n`-th multiple of the step, the loop emits the remaining multiples below
the limit. -/
theorem tileLoop_eq_range (step limit : ℚ) (hstep : 0 < step) :
    ∀ (fuel n : Nat), (Int.ceil (limit / step) - (n : Int)).toNat ≤ fuel →
      tileLoop fuel ((n : ℚ) * step) limit step =
        (List.range ((Int.ceil (limit / step) - (n : Int)).toNat)).map
          (fun (j : Nat) => ((n + j : Nat) : ℚ) * step) := by
  intro fuel
  induction fuel with
  | zero =>
      intro n hn
      have h0 : (Int.ceil (limit / step) - (n : Int)).toNat = 0 :=
        Nat.le_zero.mp hn
      simp [tileLoop, h0]
  | succ f ih =>
      intro n hn
      by_cases hlt : (n : ℚ) * step < limit
      · have hceil : (n : Int) < Int.ceil (limit / step) := by
          rw [Int.lt_ceil]
          push_cast
          rw [lt_div_iff₀ hstep]
          exact hlt
        have hc1 : (Int.ceil (limit / step) - (n : Int)).toNat =
            (Int.ceil (limit / step) - ((n + 1 : Nat) : Int)).toNat + 1 := by
          push_cast
          omega
        have hfuel : (Int.ceil (limit / step) - ((n + 1 : Nat) : Int)).toNat ≤ f := by
          omega
        have hstep1 : (n : ℚ) * step + step = ((n + 1 : Nat) : ℚ) * step := by
          push_cast
          ring
        simp only [tileLoop, if_pos hlt]
        rw [hstep1, ih (n + 1) hfuel, hc1, List.range_succ_eq_map,
          List.map_cons, List.map_map]
        refine List.cons_eq_cons.mpr ⟨by push_cast; ring, ?_⟩
        refine List.map_congr_left fun j _ => ?_
        simp only [Function.comp_apply, Nat.succ_eq_add_one]
        have hnj : n + 1 + j = n + (j + 1) := by omega
        rw [hnj]
      · have hle : Int.ceil (limit / step) ≤ (n : Int) := by
          rw [Int.ceil_le]
          push_cast
          rw [div_le_iff₀ hstep]
          linarith [not_lt.mp hlt]
        have h0 : (Int.ceil (limit / step) - (n : Int)).toNat = 0 := by omega
        simp [tileLoop, if_neg hlt, h0]

/-- Closed form of the counting loop from 0: with enough fuel and a
positive step it emits exactly `stepCount limit step` multiples of the
step. -/
theorem tileLoop_zero_start (step limit : ℚ) (hstep : 0 < step)
    (fuel : Nat) (hfuel : stepCount limit step ≤ fuel) :
    tileLoop fuel 0 limit step =
      (List.range (stepCount limit step)).map (fun (j : Nat) => (j : ℚ) * step) := by
  have h0 : (0 : ℚ) = ((0 : Nat) : ℚ) * step := by push_cast; ring
  have hn : (Int.ceil (limit / step) - ((0 : Nat) : Int)).toNat ≤ fuel := by
    simpa [stepCount] using hfuel
  rw [h0, tileLoop_eq_range step limit hstep fuel 0 hn]
  have hcnt : (Int.ceil (limit / step) - ((0 : Nat) : Int)).toNat =
      stepCount limit step := by
    simp [stepCount]
  rw [hcnt]
  refine List.map_congr_left fun j _ => ?_
  norm_num

/-- C2 (corrected): for every anchor, positive surface dimensions, and any
margin with `2·margin ≤ width` and `2·margin ≤ height`, the resolved
raster anchor coordinate lies within `[margin, dimension − margin]` on
both axes.  (The extra margin bound is forced by the counterexample
`c2_margin_bound_fails_large_margin`: the table places center anchors at
`dimension / 2` regardless of the margin.) -/
theorem c2_anchor_within_margins (p : WatermarkPosition) (w h m : ℚ)
    (_hw : 0 < w) (_hh : 0 < h) (hmw : 2 * m ≤ w) (hmh : 2 * m ≤ h) :
    m ≤ (getWatermarkPosition p w h m).x ∧
      (getWatermarkPosition p w h m).x ≤ w - m ∧
      m ≤ (getWatermarkPosition p w h m).y ∧
      (getWatermarkPosition p w h m).y ≤ h - m := by
  cases p <;>
    refine ⟨?_, ?_, ?_, ?_⟩ <;>
      simp only [getWatermarkPosition] <;> linarith

/-- Witness for `c2_anchor_within_margins` at `top-left`, a 100×100
surface, and margin 10. -/
theorem c2_anchor_within_margins_witness :
    (10 : ℚ) ≤ (getWatermarkPosition .topLeft 100 100 10).x ∧
      (getWatermarkPosition .topLeft 100 100 10).x ≤ 100 - 10 ∧
      (10 : ℚ) ≤ (getWatermarkPosition .topLeft 100 100 10).y ∧
      (getWatermarkPosition .topLeft 100 100 10).y ≤ 100 - 10 :=
  c2_anchor_within_margins .topLeft 100 100 10 (by norm_num) (by norm_num)
    (by norm_num) (by norm_num)

/-- C2 counterexample: on a positive 10×10 surface with margin 10 the
`top-center` anchor resolves to `x = 5`, violating `margin ≤ x`; so the
claim fails for arbitrary margins. -/
theorem c2_margin_bound_fails_large_margin :
    (0 : ℚ) < 10 ∧ ¬ ((10 : ℚ) ≤ (getWatermarkPosition .topCenter 10 10 10).x) := by
  refine ⟨by norm_num, ?_⟩
  simp only [getWatermarkPosition]
  norm_num

/-- C6 (confirmed): on the bottom-left-up page surface the horizontal
anchor mapping coincides with the raster mapping, and the vertical
coordinate measures the margin from the bottom edge, inverting the raw
axis value for visually-top anchors: top rows resolve to
`pageHeight − margin`, middle rows to `pageHeight / 2`, bottom rows to
`margin`. -/
theorem c6_pdf_anchor_mapping (p : WatermarkPosition) (w h m : ℚ) :
    (getWatermarkPositionPdf p w h m).x = (getWatermarkPosition p w h m).x ∧
      (getWatermarkPositionPdf p w h m).y = claimPdfY p h m := by
  cases p <;> exact ⟨rfl, rfl⟩

/-- C7 (corrected): the emitted PDF draw x is the resolved anchor x
shifted by half the measured text width — minus half for right- and
center-column anchors, plus half for left-column anchors.  Consequently
only center-column anchors are placed as the resolved alignment
specifies; left- and right-column anchors end up offset from the
alignment-correct position by half the text width. -/
theorem c7_pdf_draw_x_shift (p : WatermarkPosition) (w h m tw : ℚ) :
    pdfSingleDrawX p w h m tw =
        (getWatermarkPositionPdf p w h m).x + codeShiftPdf (anchorCol p) tw ∧
      pdfSingleDrawX p w h m tw - specAlignedDrawX p w h m tw =
        alignErrPdf (anchorCol p) tw := by
  cases p <;>
    refine ⟨?_, ?_⟩ <;>
      simp only [pdfSingleDrawX, specAlignedDrawX, getWatermarkPositionPdf,
        includesRight, includesCenter, anchorCol, codeShiftPdf, alignErrPdf,
        if_true, if_false, Bool.false_eq_true] <;>
      ring

/-- C1 (corrected, amended to the export-canvas and thumbnail raster
paths): in the repeating branches of `drawWatermarkOnCanvas`
(`SettingsPanel.tsx`) and `drawWatermarkToCanvas` (`Thumbnail.tsx`), with
positive strides and enough fuel for the loops to run to completion, the
draw positions are exactly the spec's canonical origins — `y` from 0 up to
`2·surfaceHeight` step `vStride`, `x` from 0 up to `2·surfaceWidth` step
`hStride`, offset by `(−surfaceWidth, −surfaceHeight)` — under one
whole-frame rotation about the surface center `(w/2, h/2)`.  The
interactive-preview raster path is excluded: it rotates each instance
about its own origin (counterexample `c1_preview_not_canonical`). -/
theorem c1_canvas_tiling_canonical (w h hStride vStride co si : ℚ)
    (fuelY fuelX : Nat) (hv : 0 < vStride) (hh : 0 < hStride)
    (hfy : stepCount (h * 2) vStride ≤ fuelY)
    (hfx : stepCount (w * 2) hStride ≤ fuelX) :
    canvasRepeatPositions w h hStride vStride co si fuelY fuelX =
      (specCanonicalOrigins w h hStride vStride).map
        (rotAboutPoint co si (w / 2, h / 2)) := by
  unfold canvasRepeatPositions specCanonicalOrigins
  rw [tileLoop_zero_start vStride (h * 2) hv fuelY hfy,
    tileLoop_zero_start hStride (w * 2) hh fuelX hfx,
    List.flatMap_map, List.map_flatMap]
  simp only [List.map_map]
  congr 1
  funext j
  congr 1
  funext k
  simp only [Function.comp_apply]
  exact canvasFrameTransform_apply w h co si _

/-- Witness for `c1_canvas_tiling_canonical` on a 2×2 surface with both
strides 3 (two iterations per axis) and the rotation values of −90°. -/
theorem stepCount_four_three : stepCount 4 3 = 2 := by
  unfold stepCount
  have hceil : Int.ceil ((4 : ℚ) / 3) = 2 := by
    rw [Int.ceil_eq_iff]
    constructor <;> norm_num
  rw [hceil]
  rfl

theorem stepCount_two_two_three : stepCount (2 * 2) 3 = 2 := by
  norm_num [stepCount_four_three]

theorem c1_canvas_tiling_canonical_witness :
    canvasRepeatPositions 2 2 3 3 0 1 2 2 =
      (specCanonicalOrigins 2 2 3 3).map (rotAboutPoint 0 1 (2 / 2, 2 / 2)) :=
  c1_canvas_tiling_canonical 2 2 3 3 0 1 2 2 (by norm_num) (by norm_num)
    (by simp [stepCount_two_two_three]) (by simp [stepCount_two_two_three])

/-- C1 counterexample: the interactive preview (`drawWatermark` in
`PreviewWindow.tsx`) is a repeating-mode render onto a raster surface, yet
on a 2×2 surface with strides 3 and rotation values of −90° its draw
positions are not the canonical whole-frame-rotated origins the claim
asserts for every raster repeating render. -/
theorem c1_preview_not_canonical :
    previewRepeatPositions 2 2 3 3 5 5 ≠
      (specCanonicalOrigins 2 2 3 3).map (rotAboutPoint 0 1 (2 / 2, 2 / 2)) := by
  norm_num [previewRepeatPositions, specCanonicalOrigins, tileLoop,
    stepCount_four_three, rotAboutPoint, List.range_succ, List.range_zero]

/-- C7 counterexample: for the `top-left` anchor on a 1000×800 page with
margin 10 and text width 100, the emitted x is 60 while an
alignment-correct left placement requires 10 — the draw x does not place
the text as the resolved alignment specifies. -/
theorem c7_left_anchor_misplaced :
    pdfSingleDrawX .topLeft 1000 800 10 100 ≠
      specAlignedDrawX .topLeft 1000 800 10 100 := by
  simp only [pdfSingleDrawX, specAlignedDrawX, getWatermarkPositionPdf,
    includesRight, includesCenter, anchorCol, Bool.false_eq_true, if_false]
  norm_num

/-- `rad` evaluates to 0 at angle 0. -/
theorem rasterRad_zero : rasterRad 0 = 0 := by
  unfold rasterRad
  ring

/-- `rad` evaluates to `−π/2` at angle 90. -/
theorem rasterRad_ninety : rasterRad 90 = -(Real.pi / 2) := by
  unfold rasterRad
  ring

/-- On the unit circle the 1-norm is at least 1: `1 ≤ |cos x| + |sin x|`. -/
theorem one_le_abs_cos_add_abs_sin (x : ℝ) :
    1 ≤ |Real.cos x| + |Real.sin x| := by
  nlinarith [Real.sin_sq_add_cos_sq x, abs_nonneg (Real.cos x),
    abs_nonneg (Real.sin x), sq_abs (Real.cos x), sq_abs (Real.sin x),
    mul_nonneg (abs_nonneg (Real.cos x)) (abs_nonneg (Real.sin x))]

/-- A positive combination: `0 < u·a + v·b + c` whenever the weights are
positive, `a, b` are nonnegative with `1 ≤ a + b`, and `0 ≤ c`. -/
theorem pos_combo (u v a b c : ℝ) (hu : 0 < u) (hv : 0 < v) (ha : 0 ≤ a)
    (hb : 0 ≤ b) (hab : 1 ≤ a + b) (hc : 0 ≤ c) : 0 < u * a + v * b + c := by
  rcases eq_or_lt_of_le ha with h | h
  · have hb1 : 1 ≤ b := by linarith
    have h1 : 0 < v * b := mul_pos hv (by linarith)
    have h2 : 0 ≤ u * a := mul_nonneg hu.le ha
    linarith
  · have h1 : 0 < u * a := mul_pos hu h
    have h2 : 0 ≤ v * b := mul_nonneg hv.le hb
    linarith

/-- C3 (code bug): at the failing input — repeating mode, text measured to
width 0 (empty string), angle 0, column spacing 0 on a 1000-wide surface —
the code computes `hStride = 0` and the x loop `for (x = 0; x < 2·1000;
x += 0)` never advances: with any iteration budget the loop consumes the
whole budget without exiting.  No minimum footprint equal to `fontSize`
is substituted anywhere in the source. -/
theorem c3_zero_width_zero_spacing_stalls :
    hStrideR 0 48 0 0 = 0 ∧
      ∀ fuel, (tileLoop fuel 0 (1000 * 2) 0).length = fuel := by
  constructor
  · simp [hStrideR, boxWidthR, rasterRad_zero, Real.cos_zero, Real.sin_zero,
      abs_one, abs_zero]
  · intro fuel
    induction fuel with
    | zero => simp [tileLoop]
    | succ f ih =>
        simp only [tileLoop]
        rw [if_pos (by norm_num), add_zero]
        simp [ih]

/-- C4 counterexample: with `colSpacing = −200`, text width 100, text
height 48 and angle 0, the code's horizontal stride is `100 − 200 < 0`:
the negative spacing reaches the stride computation unclamped and the
stride is not strictly positive. -/
theorem c4_negative_spacing_not_clamped : hStrideR 100 48 0 (-200) < 0 := by
  simp only [hStrideR, boxWidthR, rasterRad_zero, Real.cos_zero,
    Real.sin_zero, abs_one, abs_zero]
  norm_num

/-- C4 (corrected): the source performs no clamping — a negative spacing
reaches the stride computation unchanged (counterexample
`c4_negative_spacing_not_clamped`).  What does hold: for nonnegative
`rowSpacing`/`colSpacing` and strictly positive measured text dimensions,
both strides are strictly positive at every angle, because the rotated
bounding box of a positive box is bounded below by
`min(textWidth, textHeight) · (|cos| + |sin|)`. -/
theorem c4_strides_positive_for_nonneg_spacing
    (tw th angle rs cs : ℝ) (htw : 0 < tw) (hth : 0 < th)
    (hrs : 0 ≤ rs) (hcs : 0 ≤ cs) :
    0 < hStrideR tw th angle cs ∧ 0 < vStrideR tw th angle rs := by
  have ha : 0 ≤ |Real.cos (rasterRad angle)| := abs_nonneg _
  have hb : 0 ≤ |Real.sin (rasterRad angle)| := abs_nonneg _
  have hab : 1 ≤ |Real.cos (rasterRad angle)| + |Real.sin (rasterRad angle)| :=
    one_le_abs_cos_add_abs_sin _
  constructor
  · exact pos_combo tw th _ _ cs htw hth ha hb hab hcs
  · exact pos_combo tw th _ _ rs htw hth hb ha (by linarith) hrs

/-- Witness for `c4_strides_positive_for_nonneg_spacing` with text
200×48, angle 33° and spacings 50. -/
theorem c4_strides_positive_witness :
    0 < hStrideR 200 48 33 50 ∧ 0 < vStrideR 200 48 33 50 :=
  c4_strides_positive_for_nonneg_spacing 200 48 33 50 50 (by norm_num)
    (by norm_num) (by norm_num) (by norm_num)

/-- C5 (corrected, amended to the renderers that use the rotated bounding
box — the export-canvas, thumbnail and PDF repeating paths, but not the
interactive preview): the strides derive from
`boxWidth = textWidth·|cos| + textHeight·|sin|` and
`boxHeight = textWidth·|sin| + textHeight·|cos|` plus spacing, so at angle
0 the strides are exactly `textWidth + colSpacing` and
`textHeight + rowSpacing`, and at angle 90° the box dimensions swap
exactly. -/
theorem c5_box_stride_at_zero_and_ninety (tw th rs cs : ℝ) :
    hStrideR tw th 0 cs = tw + cs ∧ vStrideR tw th 0 rs = th + rs ∧
      boxWidthR tw th 90 = th ∧ boxHeightR tw th 90 = tw := by
  refine ⟨?_, ?_, ?_, ?_⟩ <;>
    simp [hStrideR, vStrideR, boxWidthR, boxHeightR, rasterRad_zero,
      rasterRad_ninety, Real.cos_zero, Real.sin_zero, Real.cos_neg,
      Real.sin_neg, Real.cos_pi_div_two, Real.sin_pi_div_two, abs_one,
      abs_zero, abs_neg]

/-- C5 counterexample: the interactive preview is a repeating-mode render,
but its horizontal stride is `textWidth + colSpacing` with the unrotated
text width; at angle 90° with text 200×48 it differs from the
box-derived stride the claim asserts for every repeating render. -/
theorem c5_preview_stride_not_box_derived :
    previewHStrideR 200 0 ≠ hStrideR 200 48 90 0 := by
  simp only [previewHStrideR, hStrideR, boxWidthR, rasterRad_ninety,
    Real.cos_neg, Real.sin_neg, Real.cos_pi_div_two, Real.sin_pi_div_two,
    abs_neg, abs_one, abs_zero]
  norm_num

/-- C9 (confirmed): saving a preset under a name that (after trimming)
already exists leaves the style list and the persisted storage unchanged;
saving under a fresh non-empty trimmed name appends exactly that one
entry to both. -/
theorem c9_save_style_duplicate_and_fresh (name : String) (st : StyleStore)
    (opts : WatermarkOptions) :
    (st.styles.any (fun s => s.name == jsTrim name) = true →
        handleSaveStyle name st opts = st) ∧
      (jsTrim name ≠ "" →
        st.styles.any (fun s => s.name == jsTrim name) = false →
        handleSaveStyle name st opts =
          ⟨st.styles ++ [⟨jsTrim name, opts⟩],
            st.styles ++ [⟨jsTrim name, opts⟩]⟩) := by
  constructor
  · intro hdup
    unfold handleSaveStyle
    by_cases he : jsTrim name = ""
    · simp [he]
    · simp [he, hdup]
  · intro hne hfresh
    unfold handleSaveStyle
    simp [hne, hfresh]

/-- Witness for `c9_save_style_duplicate_and_fresh`: on a store holding
one style named `logo`, saving `logo ` (trims to the duplicate) changes
nothing, and saving the fresh name `brand` appends exactly one entry. -/
theorem c9_save_style_witness :
    handleSaveStyle ("logo ") sampleStore sampleOptions = sampleStore ∧
      handleSaveStyle ("brand") sampleStore sampleOptions =
        ⟨sampleStore.styles ++ [⟨jsTrim ("brand"), sampleOptions⟩],
          sampleStore.styles ++ [⟨jsTrim ("brand"), sampleOptions⟩]⟩ :=
  ⟨(c9_save_style_duplicate_and_fresh ("logo ") sampleStore sampleOptions).1
      (by decide),
    (c9_save_style_duplicate_and_fresh ("brand") sampleStore sampleOptions).2
      (by decide) (by decide)⟩

/-- A character parses as a hex digit exactly when it is in the regex
class `[a-f\d]` (case-insensitively). -/
theorem hexDigitVal?_isSome (c : Char) :
    (hexDigitVal? c).isSome = isHexDigitB c := by
  unfold hexDigitVal? isHexDigitB
  split_ifs with h1 h2 h3 <;> simp_all

/-- `parse6` succeeds exactly on lists of six hex-digit characters. -/
theorem parse6_eq_none (l : List Char)
    (h : (l.length == 6 && l.all isHexDigitB) = false) : parse6 l = none := by
  rcases l with _ | ⟨c1, _ | ⟨c2, _ | ⟨c3, _ | ⟨c4, _ | ⟨c5, _ | ⟨c6, _ | ⟨c7, t⟩⟩⟩⟩⟩⟩⟩
  · simp [parse6]
  · simp [parse6]
  · simp [parse6]
  · simp [parse6]
  · simp [parse6]
  · simp [parse6]
  · simp only [List.length_cons, List.length_nil, List.all_cons,
      List.all_nil, Bool.and_true] at h
    simp only [parse6]
    rcases h1 : hexDigitVal? c1 with _ | d1 <;>
      rcases h2 : hexDigitVal? c2 with _ | d2 <;>
        rcases h3 : hexDigitVal? c3 with _ | d3 <;>
          rcases h4 : hexDigitVal? c4 with _ | d4 <;>
            rcases h5 : hexDigitVal? c5 with _ | d5 <;>
              rcases h6 : hexDigitVal? c6 with _ | d6 <;>
                simp_all [← hexDigitVal?_isSome]
  · simp [parse6]

/-- The regex match of `hexToRgba` fails exactly when the colour string is
not of the optional-`#` 6-hex-digit form. -/
theorem hexExecL_eq_none (l : List Char) (h : specSixHexFormL l = false) :
    hexExecL l = none := by
  rcases l with _ | ⟨c, rest⟩
  · simp only [hexExecL]
    apply parse6_eq_none
    simp
  · by_cases hc : c = '#'
    · subst hc
      simp only [hexExecL, if_pos rfl]
      apply parse6_eq_none
      simpa [specSixHexFormL] using h
    · simp only [hexExecL, if_neg hc]
      apply parse6_eq_none
      simpa [specSixHexFormL, if_neg hc] using h

/-- C10 (confirmed): for every colour string that is not of the
6-hex-digit form (with optional leading `#`) and every opacity, the
colour-conversion helper shared by the three raster render paths falls
back to opaque black with the given opacity. -/
theorem c10_invalid_color_fallback (s : String) (o : ℚ)
    (h : specSixHexFormL s.data = false) : hexToRgba s o = ⟨0, 0, 0, o⟩ := by
  unfold hexToRgba
  rw [hexExecL_eq_none s.data h]

/-- Witness for `c10_invalid_color_fallback` on the colour string `red`. -/
theorem c10_invalid_color_fallback_witness :
    specSixHexFormL (String.data ("red")) = false ∧
      hexToRgba ("red") (1 / 2) = ⟨0, 0, 0, 1 / 2⟩ :=
  ⟨by decide, c10_invalid_color_fallback ("red") (1 / 2) (by decide)⟩

end Watermark
